import Mathlib

/-!
Verification development for the funfsm repository: a message-driven
finite-state-machine engine together with a contract-checking harness
(`Checker`) that replays a message sequence and enforces state-keyed
preconditions, postconditions, global context invariants and
per-transition rules.

The shallow embedding below is generic over four types, mirroring the
`FsmTypes` bundle of the source: a state identity `S` (a state function is
a named value; we embed the set of state functions as a type `S` of states
together with a naming function and a family of transition behaviours),
the context `C`, the message type `M` and the output type `O`.

Results are `Except String Unit`, embedding Rust's `Result<(), String>`.
-/

/-- Modelled from the spec: `fsm.rs` is not shipped under `src/` (only
`fsm_check.rs`, `lib.rs` and `tests/bowl_fsm.rs` are). Per spec §4.1 a
state function pairs a stable diagnostic name with transition behaviour
taking a mutable context and an owned message and returning the next
state function together with an ordered output sequence. We embed the
whole set of state functions of one machine as a type `S` with a naming
function `name` and a step family `step`. -/
structure Machine (S C M O : Type) where
  name : S → String
  step : S → C → M → S × C × List O

/-- Modelled from the spec: the synchronous engine (`fsm.rs` /
`local_fsm.rs`, not under `src/`). It holds the current state function
and the context (spec §4.1/§4.2). -/
structure Fsm (S C M O : Type) where
  machine : Machine S C M O
  state : S
  ctx : C

/-- Modelled from the spec: `get_state()` returns the current state name
and a view of the context; pure observer (spec §4.1). -/
def Fsm.get_state {S C M O : Type} (f : Fsm S C M O) : String × C :=
  (f.machine.name f.state, f.ctx)

/-- Modelled from the spec: `send(message)` invokes the current state
function with the context and message, replaces the held state function
with the returned one, and returns the collected outputs (spec §4.1). -/
def Fsm.send {S C M O : Type} (f : Fsm S C M O) (msg : M) :
    Fsm S C M O × List O :=
  let r := f.machine.step f.state f.ctx msg
  (Fsm.mk f.machine r.1 r.2.1, r.2.2)

/-- Applying a whole message sequence to the engine, message by message,
discarding outputs: the pure trajectory of the machine. -/
def Fsm.sendAll {S C M O : Type} (f : Fsm S C M O) : List M → Fsm S C M O
  | [] => f
  | msg :: rest => ((f.send msg).1).sendAll rest

/-- Observation trace of an engine run: for each message, the
post-transition state name, the post-transition context, and the outputs
that `send` returned for that message. -/
def Fsm.runTrace {S C M O : Type} (f : Fsm S C M O) :
    List M → List (String × C × List O)
  | [] => []
  | msg :: rest =>
    let r := f.send msg
    (r.1.machine.name r.1.state, r.1.ctx, r.2) :: r.1.runTrace rest

/-- Evaluate a list of predicates on a context, failing on the first
false one (the registry's invariant-checking policy, spec §4.3). -/
def checkPredList {C : Type} (ps : List (C → Except String Unit)) (ctx : C) :
    Except String Unit :=
  match ps with
  | [] => .ok ()
  | p :: rest =>
    match p ctx with
    | .error e => .error e
    | .ok _ => checkPredList rest ctx

/-- Modelled from the spec: `constraints.rs` is not under `src/`. This is
the constraints registry in the shape required by the call sites of
`Checker::check` in `src/src/fsm_check.rs`: preconditions and
postconditions keyed by state name (single slot per name, spec §4.3),
an unordered list of invariants, and transition rules keyed by the
ordered (from, to) name pair — where `check_transitions` there receives
only the post-transition context (`check_transitions(from, to, &ctx)`). -/
structure ConstraintsSrc (C : Type) where
  preconditions : String → Option (C → Except String Unit)
  postconditions : String → Option (C → Except String Unit)
  invariants : List (C → Except String Unit)
  transitions : String → String → Option (C → Except String Unit)

/-- Modelled from the spec: lookup by state name; absent key is vacuous
success; present predicate is evaluated (spec §4.3). -/
def ConstraintsSrc.check_preconditions {C : Type} (c : ConstraintsSrc C)
    (s : String) (ctx : C) : Except String Unit :=
  match c.preconditions s with
  | none => .ok ()
  | some p => p ctx

/-- Modelled from the spec: same lookup / vacuous-success policy as
preconditions (spec §4.3). -/
def ConstraintsSrc.check_postconditions {C : Type} (c : ConstraintsSrc C)
    (s : String) (ctx : C) : Except String Unit :=
  match c.postconditions s with
  | none => .ok ()
  | some p => p ctx

/-- Modelled from the spec: evaluate every registered invariant, failing
on the first false one (spec §4.3). -/
def ConstraintsSrc.check_invariants {C : Type} (c : ConstraintsSrc C)
    (ctx : C) : Except String Unit :=
  checkPredList c.invariants ctx

/-- Modelled from the spec: lookup by the exact (from, to) pair, vacuous
success when absent — with the argument list supplied by
`src/src/fsm_check.rs` (the post-transition context only). -/
def ConstraintsSrc.check_transitions {C : Type} (c : ConstraintsSrc C)
    (s₁ s₂ : String) (ctx : C) : Except String Unit :=
  match c.transitions s₁ s₂ with
  | none => .ok ()
  | some p => p ctx

namespace CheckerSrc

/-- One iteration of the loop body of `Checker::check`
(`src/src/fsm_check.rs` lines 21–29): read `(from, ctx)`, check the
preconditions of `from` on the pre-transition context, send the message
(outputs discarded, as in `self.fsm.send_msg(msg);`), read `(to, ctx)`,
then check postconditions (keyed by `from`), invariants, and the
(from, to) transition rule, all on the post-transition context. -/
def step {S C M O : Type} (c : ConstraintsSrc C) (f : Fsm S C M O)
    (msg : M) : Except String (Fsm S C M O) :=
  let fromS := f.machine.name f.state
  match c.check_preconditions fromS f.ctx with
  | .error e => .error e
  | .ok _ =>
    let f₂ := (f.send msg).1
    let toS := f₂.machine.name f₂.state
    match c.check_postconditions fromS f₂.ctx with
    | .error e => .error e
    | .ok _ =>
      match c.check_invariants f₂.ctx with
      | .error e => .error e
      | .ok _ =>
        match c.check_transitions fromS toS f₂.ctx with
        | .error e => .error e
        | .ok _ => .ok f₂

/-- `Checker::check(msgs)` (`src/src/fsm_check.rs` lines 20–31): fold the
loop body over the message sequence; `try!` propagates the first error
immediately. The final engine is returned in place of the mutated
`self.fsm`. -/
def check {S C M O : Type} (c : ConstraintsSrc C) (f : Fsm S C M O) :
    List M → Except String (Fsm S C M O)
  | [] => .ok f
  | msg :: rest =>
    match step c f msg with
    | .error e => .error e
    | .ok f₂ => check c f₂ rest

/-- Number of engine sends performed by one loop iteration: the send at
line 24 runs exactly when the precondition check at line 23 passed. -/
def stepSends {S C M O : Type} (c : ConstraintsSrc C) (f : Fsm S C M O) :
    Nat :=
  match c.check_preconditions (f.machine.name f.state) f.ctx with
  | .error _ => 0
  | .ok _ => 1

/-- `check` instrumented with a count of engine sends actually
performed: every successful loop iteration (and every iteration failing
after its send) contributes one send; an iteration stopped at the
precondition contributes none. -/
def checkCount {S C M O : Type} (c : ConstraintsSrc C) (f : Fsm S C M O) :
    List M → Nat × Except String (Fsm S C M O)
  | [] => (0, .ok f)
  | msg :: rest =>
    match step c f msg with
    | .error e => (stepSends c f, .error e)
    | .ok f₂ =>
      let p := checkCount c f₂ rest
      (1 + p.1, p.2)

end CheckerSrc

/-- Modelled from the spec: `constraints.rs` is not under `src/`. The
registry as spec §4.3 describes it, with transition rules taking all
four pieces of evidence: context before, context after, the message, and
the outputs the transition produced. This matches the four-argument
transition rules registered by the repository's own tests
(`tests/bowl_fsm.rs`, `empty_to_full` / `full_to_empty`). -/
structure Constraints (C M O : Type) where
  preconditions : String → Option (C → Except String Unit)
  postconditions : String → Option (C → Except String Unit)
  invariants : List (C → Except String Unit)
  transitions : String → String → Option (C → C → M → List O → Except String Unit)

/-- Modelled from the spec: lookup by state name, vacuous success when
absent (spec §4.3). -/
def Constraints.check_preconditions {C M O : Type} (c : Constraints C M O)
    (s : String) (ctx : C) : Except String Unit :=
  match c.preconditions s with
  | none => .ok ()
  | some p => p ctx

/-- Modelled from the spec: same lookup / vacuous-success policy as
preconditions (spec §4.3). -/
def Constraints.check_postconditions {C M O : Type} (c : Constraints C M O)
    (s : String) (ctx : C) : Except String Unit :=
  match c.postconditions s with
  | none => .ok ()
  | some p => p ctx

/-- Modelled from the spec: evaluate every registered invariant, failing
on the first false one (spec §4.3). -/
def Constraints.check_invariants {C M O : Type} (c : Constraints C M O)
    (ctx : C) : Except String Unit :=
  checkPredList c.invariants ctx

/-- Modelled from the spec: lookup by the exact (from, to) pair; absent
⇒ vacuous success; present ⇒ evaluate the rule with all four pieces of
evidence (spec §4.3). -/
def Constraints.check_transitions {C M O : Type} (c : Constraints C M O)
    (s₁ s₂ : String) (cb ca : C) (msg : M) (outs : List O) :
    Except String Unit :=
  match c.transitions s₁ s₂ with
  | none => .ok ()
  | some p => p cb ca msg outs

namespace CheckerSpec

/-- Modelled from the spec: the Checker of spec §4.4 (the checker the
repository's tests use, whose implementation is not under `src/`). For
one message: read `(fromState, contextBefore)`; check preconditions of
`fromState`; apply the message via `send`, capturing outputs; read
`(toState, contextAfter)`; then postconditions (keyed by the
pre-transition name, §4.3), invariants, and the (from, to) transition
rule with contextBefore, contextAfter, the message and the outputs. -/
def step {S C M O : Type} (c : Constraints C M O) (f : Fsm S C M O)
    (msg : M) : Except String (Fsm S C M O) :=
  let fromS := f.machine.name f.state
  let ctxB := f.ctx
  match c.check_preconditions fromS ctxB with
  | .error e => .error e
  | .ok _ =>
    let r := f.send msg
    let f₂ := r.1
    let outs := r.2
    let toS := f₂.machine.name f₂.state
    let ctxA := f₂.ctx
    match c.check_postconditions fromS ctxA with
    | .error e => .error e
    | .ok _ =>
      match c.check_invariants ctxA with
      | .error e => .error e
      | .ok _ =>
        match c.check_transitions fromS toS ctxB ctxA msg outs with
        | .error e => .error e
        | .ok _ => .ok f₂

/-- Modelled from the spec: replaying a whole ordered message sequence,
stopping at the first violation (spec §4.4); the tests drive the checker
one message at a time in order, which is this fold. -/
def check {S C M O : Type} (c : Constraints C M O) (f : Fsm S C M O) :
    List M → Except String (Fsm S C M O)
  | [] => .ok f
  | msg :: rest =>
    match step c f msg with
    | .error e => .error e
    | .ok f₂ => check c f₂ rest

end CheckerSpec

/-! ## The bowl-of-food example domain (`tests/bowl_fsm.rs`) -/

namespace Bowl

/-- `CatMsg` from `tests/bowl_fsm.rs`. -/
inductive CatMsg : Type
  | meow : CatMsg
  | eat : Nat → CatMsg
deriving DecidableEq

/-- `StoreReq` from `tests/bowl_fsm.rs`. -/
inductive StoreReq : Type
  | buy : Nat → StoreReq
deriving DecidableEq

/-- `StoreRpy` from `tests/bowl_fsm.rs`. -/
inductive StoreRpy : Type
  | bowls : Nat → StoreRpy
deriving DecidableEq

/-- `BowlMsg` from `tests/bowl_fsm.rs`. -/
inductive BowlMsg : Type
  | catMsg : CatMsg → BowlMsg
  | storeRpy : StoreRpy → BowlMsg
deriving DecidableEq

/-- `Context` from `tests/bowl_fsm.rs`: `contents` and `reserves` are
`u8` in the source; they are embedded as `Nat` with wrapping (`% 256`)
written explicitly at the unguarded arithmetic sites. -/
structure Context : Type where
  contents : Nat
  reserves : Nat
deriving DecidableEq

/-- `MAX_RESERVES` from `tests/bowl_fsm.rs`. -/
def MAX_RESERVES : Nat := 10

/-- `REFILL_THRESHOLD` from `tests/bowl_fsm.rs`. -/
def REFILL_THRESHOLD : Nat := 9

/-- `Context::new()` from `tests/bowl_fsm.rs`. -/
def Context.new : Context := Context.mk 0 MAX_RESERVES

/-- The two state functions of the bowl machine, as state identities. -/
inductive BowlState : Type
  | empty : BowlState
  | full : BowlState
deriving DecidableEq

/-- The state function `empty` from `tests/bowl_fsm.rs`. On `Meow` with
positive reserves: fill the bowl, decrement reserves, and emit a
`Buy(10)` request when reserves fell to the refill threshold or below.
On a store reply `Bowls(num)`: `reserves += num - 1` (u8 wrapping
arithmetic, hence the explicit `% 256`; `num - 1` for `num = 0` wraps
to 255, written `(num + 255) % 256`) and fill the bowl. Any other
message leaves the bowl empty. -/
def empty (ctx : Context) (msg : BowlMsg) :
    BowlState × Context × List StoreReq :=
  match msg with
  | .catMsg .meow =>
    if ctx.reserves > 0 then
      let ctx₂ := Context.mk 100 (ctx.reserves - 1)
      if ctx₂.reserves ≤ REFILL_THRESHOLD then
        (.full, ctx₂, [.buy 10])
      else
        (.full, ctx₂, [])
    else
      (.empty, ctx, [])
  | .storeRpy (.bowls num) =>
    (.full, Context.mk 100 ((ctx.reserves + (num + 255) % 256) % 256), [])
  | _ => (.empty, ctx, [])

/-- The state function `full` from `tests/bowl_fsm.rs`. On `Eat(pct)`:
if `pct >= contents` the bowl is emptied, otherwise `contents -= pct`
(no underflow possible under the guard). On a store reply `Bowls(num)`:
`reserves += num` (u8 wrapping). Any other message leaves the bowl
full and the context unchanged. -/
def full (ctx : Context) (msg : BowlMsg) :
    BowlState × Context × List StoreReq :=
  match msg with
  | .catMsg (.eat pct) =>
    if pct ≥ ctx.contents then
      (.empty, Context.mk 0 ctx.reserves, [])
    else
      (.full, Context.mk (ctx.contents - pct) ctx.reserves, [])
  | .storeRpy (.bowls num) =>
    (.full, Context.mk ctx.contents ((ctx.reserves + num) % 256), [])
  | _ => (.full, ctx, [])

/-- The names the two state functions report (`state_fn!` uses the
function's identifier as the name string). -/
def bowlName : BowlState → String
  | .empty => "empty"
  | .full => "full"

/-- Dispatch to the current state function. -/
def bowlStep : BowlState → Context → BowlMsg → BowlState × Context × List StoreReq
  | .empty => empty
  | .full => full

/-- The bowl machine: the set of state functions of `tests/bowl_fsm.rs`
packaged for the engine. -/
def bowlMachine : Machine BowlState Context BowlMsg StoreReq :=
  Machine.mk bowlName bowlStep

/-- The engine as constructed by the tests: initial context
`Context::new()` and initial state function `empty`. -/
def bowlFsmInit : Fsm BowlState Context BowlMsg StoreReq :=
  Fsm.mk bowlMachine BowlState.empty Context.new

/-- The `check!` macro of the constraints module: fail with the given
label when the condition is false. -/
def checkLabel (s : String) (b : Bool) : Except String Unit :=
  if b then .ok () else .error s

/-- Precondition registered for `"empty"` in `check_constraints`:
`ctx.contents == 0`. -/
def precondEmpty (ctx : Context) : Except String Unit :=
  checkLabel "precondition: empty" (ctx.contents == 0)

/-- Precondition registered for `"full"` in `check_constraints`:
`ctx.contents > 0 && ctx.contents <= 100`. -/
def precondFull (ctx : Context) : Except String Unit :=
  checkLabel "precondition: full" (ctx.contents > 0 && ctx.contents ≤ 100)

/-- Invariant registered in `check_constraints`: `ctx.contents <= 100`. -/
def invariantContents (ctx : Context) : Except String Unit :=
  checkLabel "invariant: contents <= 100" (ctx.contents ≤ 100)

/-- `empty_to_full` from `tests/bowl_fsm.rs`: the transition from empty
to full must start with an empty bowl, end with a full one, and be in
response to a store reply or a meow. -/
def empty_to_full (init_ctx final_ctx : Context) (msg : BowlMsg)
    (_output : List StoreReq) : Except String Unit :=
  let s := "Transition from empty to full"
  match checkLabel s (init_ctx.contents == 0) with
  | .error e => .error e
  | .ok _ =>
    match checkLabel s (final_ctx.contents == 100) with
    | .error e => .error e
    | .ok _ =>
      match checkLabel s
          (match msg with
           | .storeRpy _ => true
           | .catMsg .meow => true
           | _ => false) with
      | .error e => .error e
      | .ok _ => .ok ()

/-- `full_to_empty` from `tests/bowl_fsm.rs`: the transition from full
to empty must start with a non-empty bowl, end with an empty one, and be
in response to an eat message. -/
def full_to_empty (init_ctx final_ctx : Context) (msg : BowlMsg)
    (_output : List StoreReq) : Except String Unit :=
  let s := "Transition from full to empty"
  match checkLabel s (init_ctx.contents > 0) with
  | .error e => .error e
  | .ok _ =>
    match checkLabel s (final_ctx.contents == 0) with
    | .error e => .error e
    | .ok _ =>
      match checkLabel s
          (match msg with
           | .catMsg (.eat _) => true
           | _ => false) with
      | .error e => .error e
      | .ok _ => .ok ()

/-- The registry built by `check_constraints` in `tests/bowl_fsm.rs`:
preconditions for `"empty"` and `"full"`, the contents invariant, and
the two transition rules; no postconditions are registered. -/
def bowlConstraints : Constraints Context BowlMsg StoreReq :=
  Constraints.mk
    (fun s =>
      if s = "empty" then some precondEmpty
      else if s = "full" then some precondFull
      else none)
    (fun _ => none)
    [invariantContents]
    (fun a b =>
      if a = "empty" ∧ b = "full" then some empty_to_full
      else if a = "full" ∧ b = "empty" then some full_to_empty
      else none)

/-- The message sequence of `test_check` in `tests/bowl_fsm.rs`. -/
def testMsgs : List BowlMsg :=
  [.catMsg .meow, .catMsg (.eat 30), .catMsg (.eat 70),
   .catMsg .meow, .catMsg (.eat 50), .catMsg .meow]

/-- The precondition map of the bowl scenario in source-era registry
shape (shared by several concrete registries below). -/
def precondMapSrc : String → Option (Context → Except String Unit) :=
  fun s =>
    if s = "empty" then some precondEmpty
    else if s = "full" then some precondFull
    else none

/-- A source-era rendering of the bowl scenario's registry: the same
preconditions and invariant, with transition rules over the
post-transition context only (the only shape `Checker::check` in
`src/src/fsm_check.rs` can drive). -/
def bowlConstraintsSrc : ConstraintsSrc Context :=
  ConstraintsSrc.mk
    precondMapSrc
    (fun _ => none)
    [invariantContents]
    (fun a b =>
      if a = "empty" ∧ b = "full" then
        some (fun ctx => checkLabel "empty to full" (ctx.contents == 100))
      else if a = "full" ∧ b = "empty" then
        some (fun ctx => checkLabel "full to empty" (ctx.contents == 0))
      else none)

/-- A postcondition that rejects a full bowl (used to probe which state
name the postcondition stage is keyed by). -/
def postRejectFull (ctx : Context) : Except String Unit :=
  checkLabel "postcondition: full rejected" (ctx.contents == 0)

/-- Registry with no postconditions at all. -/
def cPostA : ConstraintsSrc Context :=
  ConstraintsSrc.mk precondMapSrc (fun _ => none) [] (fun _ _ => none)

/-- Registry identical to `cPostA` except that it registers a rejecting
postcondition for `"full"` — the state the first Meow arrives at. -/
def cPostB : ConstraintsSrc Context :=
  ConstraintsSrc.mk precondMapSrc
    (fun s => if s = "full" then some postRejectFull else none)
    [] (fun _ _ => none)

/-- Registry whose `"empty"` precondition always fails. -/
def cPreFail : ConstraintsSrc Context :=
  ConstraintsSrc.mk
    (fun s => if s = "empty" then some (fun _ => .error "boom") else none)
    (fun _ => none) [] (fun _ _ => none)

/-- Registry with a single invariant `contents <= 50`, violated as soon
as the bowl is filled. -/
def cInvSrc : ConstraintsSrc Context :=
  ConstraintsSrc.mk (fun _ => none) (fun _ => none)
    [fun ctx => checkLabel "invariant: contents <= 50" (ctx.contents ≤ 50)]
    (fun _ _ => none)

/-- Registry with a transition rule registered for the (empty, empty)
pair (in source-era shape it can only look at the final context). -/
def cTransSrc : ConstraintsSrc Context :=
  ConstraintsSrc.mk (fun _ => none) (fun _ => none) []
    (fun a b =>
      if a = "empty" ∧ b = "empty" then
        some (fun ctx => checkLabel "empty loop" (ctx.contents == 0))
      else none)

/-- The registry with no registrations at all. -/
def cTrivSrc : ConstraintsSrc Context :=
  ConstraintsSrc.mk (fun _ => none) (fun _ => none) [] (fun _ _ => none)

/-- The spec-shaped registry with no registrations at all. -/
def emptyRegistry : Constraints Context BowlMsg StoreReq :=
  Constraints.mk (fun _ => none) (fun _ => none) [] (fun _ _ => none)

/-- A predicate that rejects exactly the fresh bowl context (contents
zero): it fails on the initial context and holds after any refill. -/
def rejectInitial (ctx : Context) : Except String Unit :=
  checkLabel "contents must be nonzero" (ctx.contents != 0)

end Bowl

/-! ## Helper lemmas -/

theorem checkPredList_ok {C : Type} (ps : List (C → Except String Unit))
    (ctx : C) (h : checkPredList ps ctx = .ok ()) :
    ∀ p ∈ ps, p ctx = .ok () := by
  induction ps with
  | nil => intro p hp; exact absurd hp (List.not_mem_nil p)
  | cons q rest ih =>
    intro p hp
    unfold checkPredList at h
    split at h
    · simp at h
    · rcases List.mem_cons.mp hp with h1 | h1
      · subst h1
        rename_i u heq
        cases u
        exact heq
      · exact ih h p h1

theorem CheckerSrc.step_ok {S C M O : Type} (c : ConstraintsSrc C)
    (f g : Fsm S C M O) (msg : M) (h : CheckerSrc.step c f msg = .ok g) :
    g = (f.send msg).1 ∧
    c.check_preconditions (f.machine.name f.state) f.ctx = .ok () ∧
    c.check_postconditions (f.machine.name f.state) (f.send msg).1.ctx = .ok () ∧
    c.check_invariants (f.send msg).1.ctx = .ok () ∧
    c.check_transitions (f.machine.name f.state)
      ((f.send msg).1.machine.name (f.send msg).1.state)
      (f.send msg).1.ctx = .ok () := by
  simp only [CheckerSrc.step] at h
  split at h
  · simp at h
  · rename_i u hpre
    split at h
    · simp at h
    · rename_i u2 hpost
      split at h
      · simp at h
      · rename_i u3 hinv
        split at h
        · simp at h
        · rename_i u4 htr
          cases u; cases u2; cases u3; cases u4
          simp only [Except.ok.injEq] at h
          exact ⟨h.symm, hpre, hpost, hinv, htr⟩

/-! ## Claim theorems -/

/-- C2: In `Checker::check` as shipped in `src/src/fsm_check.rs`, the
transition stage is blind to the message (and to the outputs, which are
discarded at the `send_msg` call): for every registry, two messages with
the same engine effect produce identical check results, so no transition
rule is ever evaluated with the message or outputs as evidence — contra
the claim (and contra the four-argument transition rules the
repository's own tests register). -/
theorem checker_transition_message_blind {S C M O : Type}
    (c : ConstraintsSrc C) (f : Fsm S C M O) (m₁ m₂ : M)
    (h : f.machine.step f.state f.ctx m₁ = f.machine.step f.state f.ctx m₂) :
    CheckerSrc.step c f m₁ = CheckerSrc.step c f m₂ := by
  simp only [CheckerSrc.step, Fsm.send, h]

/-- Witness for C2: from state `empty` with no reserves, `Meow` and
`Eat(5)` have the same engine effect, so the source checker — even with
a transition rule registered for the (empty, empty) pair — cannot tell
them apart. -/
theorem checker_transition_message_blind_witness :
    CheckerSrc.step Bowl.cTransSrc
        (Fsm.mk Bowl.bowlMachine Bowl.BowlState.empty (Bowl.Context.mk 0 0))
        (Bowl.BowlMsg.catMsg Bowl.CatMsg.meow) =
      CheckerSrc.step Bowl.cTransSrc
        (Fsm.mk Bowl.bowlMachine Bowl.BowlState.empty (Bowl.Context.mk 0 0))
        (Bowl.BowlMsg.catMsg (Bowl.CatMsg.eat 5)) :=
  checker_transition_message_blind Bowl.cTransSrc
    (Fsm.mk Bowl.bowlMachine Bowl.BowlState.empty (Bowl.Context.mk 0 0))
    (Bowl.BowlMsg.catMsg Bowl.CatMsg.meow)
    (Bowl.BowlMsg.catMsg (Bowl.CatMsg.eat 5)) rfl

/-- C4: for a state name with no registered precondition or
postcondition and a (from, to) pair with no registered transition rule,
the corresponding registry checks succeed for every context, message and
output sequence: absence of a registered predicate is never a failure. -/
theorem registry_vacuous_success {C M O : Type} (c : Constraints C M O)
    (s₁ s₂ : String) (ctx cb ca : C) (msg : M) (outs : List O)
    (h1 : c.preconditions s₁ = none)
    (h2 : c.postconditions s₁ = none)
    (h3 : c.transitions s₁ s₂ = none) :
    c.check_preconditions s₁ ctx = .ok () ∧
    c.check_postconditions s₁ ctx = .ok () ∧
    c.check_transitions s₁ s₂ cb ca msg outs = .ok () := by
  refine ⟨?_, ?_, ?_⟩
  · simp only [Constraints.check_preconditions, h1]
  · simp only [Constraints.check_postconditions, h2]
  · simp only [Constraints.check_transitions, h3]

/-- Witness for C4: the empty registry accepts everything at a concrete
state name, transition pair, context, message and output list. -/
theorem registry_vacuous_success_witness :
    Bowl.emptyRegistry.check_preconditions "empty" Bowl.Context.new = .ok () ∧
    Bowl.emptyRegistry.check_postconditions "empty" Bowl.Context.new = .ok () ∧
    Bowl.emptyRegistry.check_transitions "empty" "full" Bowl.Context.new
      (Bowl.Context.mk 100 9) (Bowl.BowlMsg.catMsg Bowl.CatMsg.meow)
      [Bowl.StoreReq.buy 10] = .ok () :=
  registry_vacuous_success Bowl.emptyRegistry "empty" "full"
    Bowl.Context.new Bowl.Context.new (Bowl.Context.mk 100 9)
    (Bowl.BowlMsg.catMsg Bowl.CatMsg.meow) [Bowl.StoreReq.buy 10]
    rfl rfl rfl

/-- C7: the bowl-of-food scenario. Starting from state `empty` with
`Context{contents=0, reserves=10}`, the six messages Meow, Eat(30),
Eat(70), Meow, Eat(50), Meow yield the context trajectory
{100,9} (one output), {70,9}, {0,9}, {100,8} (one output), {50,8},
{50,8} (unchanged), and the checker of spec §4.4 with the registry of
`check_constraints` accepts every one of the six steps. -/
theorem bowl_scenario_trajectory :
    Fsm.runTrace Bowl.bowlFsmInit Bowl.testMsgs =
      [("full", Bowl.Context.mk 100 9, [Bowl.StoreReq.buy 10]),
       ("full", Bowl.Context.mk 70 9, []),
       ("empty", Bowl.Context.mk 0 9, []),
       ("full", Bowl.Context.mk 100 8, [Bowl.StoreReq.buy 10]),
       ("full", Bowl.Context.mk 50 8, []),
       ("full", Bowl.Context.mk 50 8, [])] ∧
    (CheckerSpec.check Bowl.bowlConstraints Bowl.bowlFsmInit
        Bowl.testMsgs).map Fsm.get_state =
      Except.ok ("full", Bowl.Context.mk 50 8) :=
  ⟨rfl, rfl⟩

/-- C8: in state `full`, `Eat(pct)` always sets the contents to the
truncated difference `contents - pct` and leaves the reserves alone; the
bowl transitions to `empty` exactly when `pct` reaches the current
contents (so the branch boundary is at `pct == contents`, where the bowl
is emptied rather than underflowing), and the contents never wrap: they
either decrease by exactly `pct` or floor at zero. -/
theorem full_eat_boundary (ctx : Bowl.Context) (pct : Nat) :
    (Bowl.full ctx (.catMsg (.eat pct))).2.1.contents = ctx.contents - pct ∧
    (Bowl.full ctx (.catMsg (.eat pct))).2.1.reserves = ctx.reserves ∧
    ((Bowl.full ctx (.catMsg (.eat pct))).1 = Bowl.BowlState.empty ↔
      ctx.contents ≤ pct) ∧
    ((Bowl.full ctx (.catMsg (.eat pct))).2.1.contents + pct = ctx.contents ∨
      (Bowl.full ctx (.catMsg (.eat pct))).2.1.contents = 0) := by
  by_cases h : pct ≥ ctx.contents
  · simp only [Bowl.full, if_pos h]
    refine ⟨by omega, trivial, ?_, Or.inr trivial⟩
    simp only [true_iff]
    omega
  · simp only [Bowl.full, if_neg h]
    refine ⟨trivial, trivial, ?_, Or.inl (by omega)⟩
    constructor
    · intro hcon; exact Bowl.BowlState.noConfusion hcon
    · intro hle; exact absurd hle (by omega)

/-- C9: the engine is deterministic: two engines constructed from
identical machines, identical initial states and identical initial
contexts, driven by the same ordered message sequence, report identical
final state names and contexts. -/
theorem engine_determinism {S C M O : Type} (m₁ m₂ : Machine S C M O)
    (s₁ s₂ : S) (c₁ c₂ : C) (msgs : List M)
    (hm : m₁ = m₂) (hs : s₁ = s₂) (hc : c₁ = c₂) :
    (Fsm.sendAll (Fsm.mk m₁ s₁ c₁) msgs).get_state =
      (Fsm.sendAll (Fsm.mk m₂ s₂ c₂) msgs).get_state := by
  subst hm; subst hs; subst hc; rfl

/-- Witness for C9: two identically constructed bowl engines replaying
the test sequence agree on the final observation. -/
theorem engine_determinism_witness :
    (Fsm.sendAll (Fsm.mk Bowl.bowlMachine Bowl.BowlState.empty
        Bowl.Context.new) Bowl.testMsgs).get_state =
      (Fsm.sendAll (Fsm.mk Bowl.bowlMachine Bowl.BowlState.empty
        Bowl.Context.new) Bowl.testMsgs).get_state :=
  engine_determinism Bowl.bowlMachine Bowl.bowlMachine
    Bowl.BowlState.empty Bowl.BowlState.empty
    Bowl.Context.new Bowl.Context.new Bowl.testMsgs rfl rfl rfl

/-- C1: `Checker::check` processes the messages in order with the checks
of each step in a fixed order — preconditions on the pre-transition name
and context; then the send; then postconditions, invariants, and the
transition rule on the post-transition readings — each stage's failure
preempting all later stages, and any step failure producing that error
as the result of the whole run without the remaining messages ever being
applied; on an all-clear step, checking continues with the advanced
engine and the remaining messages. -/
theorem checker_check_order {S C M O : Type} (c : ConstraintsSrc C)
    (f : Fsm S C M O) (msg : M) (rest : List M) :
    (∀ e, c.check_preconditions (f.machine.name f.state) f.ctx = .error e →
      CheckerSrc.check c f (msg :: rest) = .error e) ∧
    (∀ e, c.check_preconditions (f.machine.name f.state) f.ctx = .ok () →
      c.check_postconditions (f.machine.name f.state)
        (f.send msg).1.ctx = .error e →
      CheckerSrc.check c f (msg :: rest) = .error e) ∧
    (∀ e, c.check_preconditions (f.machine.name f.state) f.ctx = .ok () →
      c.check_postconditions (f.machine.name f.state)
        (f.send msg).1.ctx = .ok () →
      c.check_invariants (f.send msg).1.ctx = .error e →
      CheckerSrc.check c f (msg :: rest) = .error e) ∧
    (∀ e, c.check_preconditions (f.machine.name f.state) f.ctx = .ok () →
      c.check_postconditions (f.machine.name f.state)
        (f.send msg).1.ctx = .ok () →
      c.check_invariants (f.send msg).1.ctx = .ok () →
      c.check_transitions (f.machine.name f.state)
        ((f.send msg).1.machine.name (f.send msg).1.state)
        (f.send msg).1.ctx = .error e →
      CheckerSrc.check c f (msg :: rest) = .error e) ∧
    (c.check_preconditions (f.machine.name f.state) f.ctx = .ok () →
      c.check_postconditions (f.machine.name f.state)
        (f.send msg).1.ctx = .ok () →
      c.check_invariants (f.send msg).1.ctx = .ok () →
      c.check_transitions (f.machine.name f.state)
        ((f.send msg).1.machine.name (f.send msg).1.state)
        (f.send msg).1.ctx = .ok () →
      CheckerSrc.check c f (msg :: rest) =
        CheckerSrc.check c (f.send msg).1 rest) := by
  refine ⟨?_, ?_, ?_, ?_, ?_⟩
  · intro e h1
    simp only [CheckerSrc.check, CheckerSrc.step, h1]
  · intro e h1 h2
    simp only [CheckerSrc.check, CheckerSrc.step, h1, h2]
  · intro e h1 h2 h3
    simp only [CheckerSrc.check, CheckerSrc.step, h1, h2, h3]
  · intro e h1 h2 h3 h4
    simp only [CheckerSrc.check, CheckerSrc.step, h1, h2, h3, h4]
  · intro h1 h2 h3 h4
    simp only [CheckerSrc.check, CheckerSrc.step, h1, h2, h3, h4]

/-- Witness for C1: on the bowl machine with the source-era bowl
registry, a fully passing first step advances the engine and the run
continues with the remaining message. -/
theorem checker_check_order_witness :
    CheckerSrc.check Bowl.bowlConstraintsSrc Bowl.bowlFsmInit
        (Bowl.BowlMsg.catMsg Bowl.CatMsg.meow ::
          [Bowl.BowlMsg.catMsg (Bowl.CatMsg.eat 30)]) =
      CheckerSrc.check Bowl.bowlConstraintsSrc
        ((Bowl.bowlFsmInit.send (Bowl.BowlMsg.catMsg Bowl.CatMsg.meow)).1)
        [Bowl.BowlMsg.catMsg (Bowl.CatMsg.eat 30)] :=
  (checker_check_order Bowl.bowlConstraintsSrc Bowl.bowlFsmInit
      (Bowl.BowlMsg.catMsg Bowl.CatMsg.meow)
      [Bowl.BowlMsg.catMsg (Bowl.CatMsg.eat 30)]).2.2.2.2 rfl rfl rfl rfl

/-- C3: the postcondition stage of a check step is keyed by the
pre-transition state name and evaluated on the post-transition context:
the step's outcome is unchanged by arbitrary modifications of the
postcondition registered at any other name (in particular at the
post-transition name), and when a postcondition is registered at the
pre-transition name, the step fails exactly with the result of that
predicate on the post-transition context. -/
theorem checker_postconditions_from_name {S C M O : Type}
    (c c' : ConstraintsSrc C) (f : Fsm S C M O) (msg : M)
    (hpre : c.preconditions = c'.preconditions)
    (hinv : c.invariants = c'.invariants)
    (htr : c.transitions = c'.transitions)
    (hfrom : c.postconditions (f.machine.name f.state) =
      c'.postconditions (f.machine.name f.state)) :
    CheckerSrc.step c f msg = CheckerSrc.step c' f msg ∧
    (∀ p e, c.postconditions (f.machine.name f.state) = some p →
      c.check_preconditions (f.machine.name f.state) f.ctx = .ok () →
      p (f.send msg).1.ctx = .error e →
      CheckerSrc.step c f msg = .error e) := by
  constructor
  · simp only [CheckerSrc.step, ConstraintsSrc.check_preconditions,
      ConstraintsSrc.check_postconditions, ConstraintsSrc.check_invariants,
      ConstraintsSrc.check_transitions, hpre, hinv, htr, hfrom]
  · intro p e hp hpre2 hpe
    simp only [CheckerSrc.step, hpre2,
      ConstraintsSrc.check_postconditions, hp, hpe]

/-- Witness for C3: registries `cPostA` and `cPostB` differ only in the
postcondition registered for `"full"`, the state the first Meow arrives
at; the check step from `"empty"` cannot tell them apart. -/
theorem checker_postconditions_from_name_witness :
    CheckerSrc.step Bowl.cPostA Bowl.bowlFsmInit
        (Bowl.BowlMsg.catMsg Bowl.CatMsg.meow) =
      CheckerSrc.step Bowl.cPostB Bowl.bowlFsmInit
        (Bowl.BowlMsg.catMsg Bowl.CatMsg.meow) :=
  (checker_postconditions_from_name Bowl.cPostA Bowl.cPostB
      Bowl.bowlFsmInit (Bowl.BowlMsg.catMsg Bowl.CatMsg.meow)
      rfl rfl rfl rfl).1

/-- C5 counterexample: with a registry whose `"empty"` precondition
always fails, message 1 is the first (and only) message whose step
triggers a violation, yet `check` applies zero messages to the engine —
not one: the precondition stage errors before the send, so the claim's
"applies exactly k messages" fails at k = 1. -/
theorem checker_failfast_counterexample :
    CheckerSrc.checkCount Bowl.cPreFail Bowl.bowlFsmInit
        [Bowl.BowlMsg.catMsg Bowl.CatMsg.meow] =
      (0, .error "boom") ∧ (0 : Nat) ≠ 1 :=
  ⟨rfl, by decide⟩

/-- C5 (amended): if the first k−1 messages all check out and the step of
message k fails with error `e`, then `check` returns `e`, the messages
after k are never applied (the whole result is independent of them), and
the engine receives exactly k messages when the failing stage is the
postcondition, invariant or transition check, and exactly k−1 messages
when it is the precondition check (`stepSends` is 1 in the former case
and 0 in the latter). -/
theorem checker_failfast_amended {S C M O : Type} (c : ConstraintsSrc C)
    (f f' : Fsm S C M O) (pre : List M) (msg : M) (rest : List M)
    (e : String)
    (h1 : CheckerSrc.check c f pre = .ok f')
    (h2 : CheckerSrc.step c f' msg = .error e) :
    CheckerSrc.check c f (pre ++ msg :: rest) = .error e ∧
    CheckerSrc.checkCount c f (pre ++ msg :: rest) =
      (pre.length + CheckerSrc.stepSends c f', .error e) := by
  induction pre generalizing f with
  | nil =>
    simp only [CheckerSrc.check] at h1
    injection h1 with h1
    subst h1
    constructor
    · simp only [List.nil_append, CheckerSrc.check, h2]
    · simp only [List.nil_append, CheckerSrc.checkCount, h2,
        List.length_nil, Nat.zero_add]
  | cons m ms ih =>
    simp only [CheckerSrc.check] at h1
    cases hstep : CheckerSrc.step c f m with
    | error e2 =>
      rw [hstep] at h1
      simp at h1
    | ok f₁ =>
      rw [hstep] at h1
      obtain ⟨ha, hb⟩ := ih f₁ h1
      constructor
      · simp only [List.cons_append, CheckerSrc.check, hstep]
        exact ha
      · simp only [List.cons_append, CheckerSrc.checkCount, hstep,
          List.append_eq, hb, List.length_cons]
        simp only [Prod.mk.injEq]
        exact ⟨by omega, trivial⟩

/-- Witness for C5 (amended): a registry whose sole invariant
`contents <= 50` is violated by the very first Meow — the first
violation is at message 1 in a post-send stage, the run returns that
error, and exactly one send is counted. -/
theorem checker_failfast_amended_witness :
    CheckerSrc.check Bowl.cInvSrc Bowl.bowlFsmInit
        (([] : List Bowl.BowlMsg) ++ Bowl.BowlMsg.catMsg Bowl.CatMsg.meow :: []) =
      .error "invariant: contents <= 50" ∧
    CheckerSrc.checkCount Bowl.cInvSrc Bowl.bowlFsmInit
        (([] : List Bowl.BowlMsg) ++ Bowl.BowlMsg.catMsg Bowl.CatMsg.meow :: []) =
      (([] : List Bowl.BowlMsg).length +
        CheckerSrc.stepSends Bowl.cInvSrc Bowl.bowlFsmInit,
       .error "invariant: contents <= 50") :=
  checker_failfast_amended Bowl.cInvSrc Bowl.bowlFsmInit Bowl.bowlFsmInit
    [] (Bowl.BowlMsg.catMsg Bowl.CatMsg.meow) []
    "invariant: contents <= 50" rfl rfl

/-- C6: invariant universality — whenever a `check` run accepts a whole
message sequence, every registered invariant holds on the context
reached after each individual message of the sequence (the context of
the engine after replaying each prefix), not merely on the final one. -/
theorem checker_invariant_universality {S C M O : Type}
    (c : ConstraintsSrc C) (f f' : Fsm S C M O) (msgs : List M)
    (h : CheckerSrc.check c f msgs = .ok f') :
    ∀ i, i < msgs.length → ∀ p ∈ c.invariants,
      p (Fsm.sendAll f (msgs.take (i + 1))).ctx = .ok () := by
  induction msgs generalizing f with
  | nil => intro i hi; simp at hi
  | cons m rest ih =>
    simp only [CheckerSrc.check] at h
    cases hstep : CheckerSrc.step c f m with
    | error e =>
      rw [hstep] at h
      simp at h
    | ok f₂ =>
      rw [hstep] at h
      obtain ⟨hg, _, _, hinv, _⟩ := CheckerSrc.step_ok c f f₂ m hstep
      intro i hi p hp
      cases i with
      | zero =>
        have hx := checkPredList_ok c.invariants (f.send m).1.ctx hinv p hp
        simpa [List.take_succ_cons, List.take_zero, Fsm.sendAll] using hx
      | succ j =>
        have hj : j < rest.length := by
          simp only [List.length_cons] at hi
          omega
        have hx := ih f₂ h j hj p hp
        rw [hg] at hx
        simpa [List.take_succ_cons, Fsm.sendAll] using hx

/-- Witness for C6: the accepted one-message bowl run satisfies the
registered invariant on the context after its first message. -/
theorem checker_invariant_universality_witness :
    Bowl.invariantContents
        ((Fsm.sendAll Bowl.bowlFsmInit
          ([Bowl.BowlMsg.catMsg Bowl.CatMsg.meow].take (0 + 1))).ctx) =
      .ok () :=
  checker_invariant_universality Bowl.bowlConstraintsSrc Bowl.bowlFsmInit
    (Fsm.mk Bowl.bowlMachine Bowl.BowlState.full (Bowl.Context.mk 100 9))
    [Bowl.BowlMsg.catMsg Bowl.CatMsg.meow] rfl 0 (by decide)
    Bowl.invariantContents (by simp [Bowl.bowlConstraintsSrc])

/-- C10: before the first send, the only check performed is the initial
state's precondition: a run over the empty sequence performs no check at
all; with at least one message, the engine receives zero sends exactly
when the initial precondition rejects the initial context; and adding an
invariant that holds after every message of an accepted run — however it
behaves on the initial context — leaves the run accepted, because
invariants (like postconditions and transition rules) are never
evaluated against the initial context. -/
theorem checker_initial_context_unchecked {S C M O : Type}
    (c : ConstraintsSrc C) (P : C → Except String Unit)
    (f f' : Fsm S C M O) (msg : M) (rest msgs : List M) :
    CheckerSrc.check c f ([] : List M) = .ok f ∧
    ((CheckerSrc.checkCount c f (msg :: rest)).1 = 0 ↔
      c.check_preconditions (f.machine.name f.state) f.ctx ≠ .ok ()) ∧
    (CheckerSrc.check c f msgs = .ok f' →
      (∀ i, i < msgs.length →
        P (Fsm.sendAll f (msgs.take (i + 1))).ctx = .ok ()) →
      CheckerSrc.check
        (ConstraintsSrc.mk c.preconditions c.postconditions
          (P :: c.invariants) c.transitions) f msgs = .ok f') := by
  refine ⟨rfl, ?_, ?_⟩
  · cases hpre : c.check_preconditions (f.machine.name f.state) f.ctx with
    | error e =>
      constructor
      · intro _
        intro hcon
        exact Except.noConfusion hcon
      · intro _
        simp only [CheckerSrc.checkCount, CheckerSrc.step, hpre,
          CheckerSrc.stepSends]
    | ok u =>
      cases u
      have hne : (CheckerSrc.checkCount c f (msg :: rest)).1 ≠ 0 := by
        cases hstep : CheckerSrc.step c f msg with
        | error e =>
          simp only [CheckerSrc.checkCount, hstep, CheckerSrc.stepSends, hpre]
          omega
        | ok f₂ =>
          simp only [CheckerSrc.checkCount, hstep]
          omega
      constructor
      · intro hcount
        exact absurd hcount hne
      · intro hcon
        exact absurd rfl hcon
  · induction msgs generalizing f with
    | nil =>
      intro h1 _
      simp only [CheckerSrc.check] at h1 ⊢
      exact h1
    | cons m ms ih =>
      intro h1 h2
      simp only [CheckerSrc.check] at h1
      cases hstep : CheckerSrc.step c f m with
      | error e =>
        rw [hstep] at h1
        simp at h1
      | ok f₂ =>
        rw [hstep] at h1
        obtain ⟨hg, hpre, hpost, hinv, htr⟩ := CheckerSrc.step_ok c f f₂ m hstep
        have hP : P (f.send m).1.ctx = .ok () := by
          have h0 := h2 0 (by simp)
          simpa [List.take_succ_cons, List.take_zero, Fsm.sendAll] using h0
        have hstep' : CheckerSrc.step
            (ConstraintsSrc.mk c.preconditions c.postconditions
              (P :: c.invariants) c.transitions) f m = .ok f₂ := by
          have epre : (ConstraintsSrc.mk c.preconditions c.postconditions
              (P :: c.invariants) c.transitions).check_preconditions
              (f.machine.name f.state) f.ctx = .ok () := hpre
          have epost : (ConstraintsSrc.mk c.preconditions c.postconditions
              (P :: c.invariants) c.transitions).check_postconditions
              (f.machine.name f.state) (f.send m).1.ctx = .ok () := hpost
          have etr : (ConstraintsSrc.mk c.preconditions c.postconditions
              (P :: c.invariants) c.transitions).check_transitions
              (f.machine.name f.state)
              ((f.send m).1.machine.name (f.send m).1.state)
              (f.send m).1.ctx = .ok () := htr
          have einv : (ConstraintsSrc.mk c.preconditions c.postconditions
              (P :: c.invariants) c.transitions).check_invariants
              (f.send m).1.ctx = .ok () := by
            show checkPredList (P :: c.invariants) (f.send m).1.ctx = .ok ()
            simp only [checkPredList, hP]
            exact hinv
          simp only [CheckerSrc.step, epre, epost, einv, etr]
          rw [hg]
        simp only [CheckerSrc.check, hstep']
        exact ih f₂ h1 (fun i hi => by
          have hx := h2 (i + 1) (by simp only [List.length_cons]; omega)
          rw [hg]
          simpa [List.take_succ_cons, Fsm.sendAll] using hx)

/-- Witness for C10: the trivial registry extended with an invariant
that rejects exactly the initial context still accepts a one-Meow run —
the violated invariant is never evaluated on the initial context. -/
theorem checker_initial_context_unchecked_witness :
    CheckerSrc.check
        (ConstraintsSrc.mk Bowl.cTrivSrc.preconditions
          Bowl.cTrivSrc.postconditions
          (Bowl.rejectInitial :: Bowl.cTrivSrc.invariants)
          Bowl.cTrivSrc.transitions)
        Bowl.bowlFsmInit [Bowl.BowlMsg.catMsg Bowl.CatMsg.meow] =
      .ok (Fsm.mk Bowl.bowlMachine Bowl.BowlState.full (Bowl.Context.mk 100 9)) :=
  (checker_initial_context_unchecked Bowl.cTrivSrc Bowl.rejectInitial
      Bowl.bowlFsmInit
      (Fsm.mk Bowl.bowlMachine Bowl.BowlState.full (Bowl.Context.mk 100 9))
      (Bowl.BowlMsg.catMsg Bowl.CatMsg.meow) []
      [Bowl.BowlMsg.catMsg Bowl.CatMsg.meow]).2.2 rfl
    (fun i hi => by
      have hz : i = 0 := by
        simp only [List.length_cons, List.length_nil] at hi
        omega
      subst hz
      rfl)
